import Mathlib

/-!
# Shallow embedding of `tictactoe_gym` (src/tictactoe_gym/envs/TicTacToeGym.py)

The environment state is the triple of the board size, the flattened board
(`self.state`, a numpy array created as `np.zeros(9)` regardless of `size`),
and the current player marker (`self.current_player`, +1 or -1).  Cells use
the encoding EMPTY = 0, PLAYER_ONE = +1, PLAYER_TWO = -1.  Rendering
(`render`, `draw_grid`, `draw_markers`, `close`) is presentation-only and is
not modelled.  Fallible operations (the `assert` in `step`, numpy index and
reshape errors) are modelled with `Option`: `none` is the raised error, and
since the Python code raises before any mutation, a `none` result leaves the
caller with the unchanged prior state.
-/

structure TicTacToeEnv where
  size : Nat
  state : List Int
  current_player : Int
deriving DecidableEq, Repr

namespace TicTacToeEnv

/-- Python positive-step slice `l[start:stop:step]` (with `start`, `stop`
already normalised to non-negative indices): the elements at indices
`start, start+step, ...` below `stop`. -/
def strided (l : List Int) (start stop step : Nat) : List Int :=
  ((List.range l.length).filter fun i =>
    decide (start ≤ i) && decide (i < stop) && ((i - start) % step == 0)).map
    fun i => l.getD i 0

/-- `TicTacToeEnv.__init__(render_mode, size)`: stores `size`, sets
`self.state = np.zeros(9)` (nine cells regardless of `size`) and
`self.current_player = 1`.  The render-mode, window and clock fields are
presentation state and are not modelled. -/
def init (size : Nat) : TicTacToeEnv :=
  { size := size, state := List.replicate 9 0, current_player := 1 }

/-- `TicTacToeEnv.reset()`: `self.state = np.zeros(9)`,
`self.current_player = 1`. -/
def reset (e : TicTacToeEnv) : TicTacToeEnv :=
  { e with state := List.replicate 9 0, current_player := 1 }

/-- Shape of `_get_obs()`, i.e. of `np.reshape(self.state, (-1, self.size))`:
`(len / size, size)` when `size` is positive and divides the flattened
length, and a raised numpy error (`none`) otherwise. -/
def obs_shape (e : TicTacToeEnv) : Option (Nat × Nat) :=
  if e.size ≠ 0 ∧ e.state.length % e.size = 0 then
    some (e.state.length / e.size, e.size)
  else none

/-- `TicTacToeEnv._is_game_over()`: for each `i < size`, test
`abs(sum(state[i*size:(i+1)*size])) == size` (row) and
`abs(sum(state[i::size])) == size` (column); then the diagonal
`state[::size+1]`, the anti-diagonal `state[size-1:-size+1:size-1]`
(for the 9-cell state the negative stop `-size+1` normalises to
`len - size + 1`), and finally fullness `sum(abs(state)) == size*size`. -/
def is_game_over (e : TicTacToeEnv) : Bool :=
  ((List.range e.size).any fun i =>
      ((((e.state.drop (i * e.size)).take e.size).sum.natAbs == e.size)
        || ((strided e.state i e.state.length e.size).sum.natAbs == e.size)))
  || ((strided e.state 0 e.state.length (e.size + 1)).sum.natAbs == e.size)
  || ((strided e.state (e.size - 1) (e.state.length - e.size + 1)
        (e.size - 1)).sum.natAbs == e.size)
  || ((e.state.map Int.natAbs).sum == e.size * e.size)

/-- `TicTacToeEnv._result()`: 0 when the game is not over; otherwise 0 when
`sum(abs(state)) == size*size` (the full-board check comes FIRST), otherwise
`+1` when `current_player == 1` and `-1` otherwise. -/
def result (e : TicTacToeEnv) : Int :=
  if is_game_over e then
    if (e.state.map Int.natAbs).sum == e.size * e.size then 0
    else if e.current_player = 1 then 1 else -1
  else 0

/-- `TicTacToeEnv.step(action)`: `assert self.action_space.contains(action)`
(the action space is `Discrete(size*size)`, so the assert fails — `none` —
exactly when `action` is outside `[0, size*size)`); reading
`self.state[action]` raises (`none`) when `action` is out of the state's
bounds; otherwise, when the target cell is 0 the current player's marker is
written there, `terminated = _is_game_over()` and `reward = _result()` are
computed on the updated board before the turn flips, and finally
`current_player` is negated.  Returns the new environment together with
`(reward, terminated)`; the observation is the new state reshaped, the
`truncated` flag is the constant `False` and `info` carries no state. -/
def step (e : TicTacToeEnv) (action : Nat) : Option (TicTacToeEnv × Int × Bool) :=
  if action < e.size * e.size then
    if action < e.state.length then
      let e1 : TicTacToeEnv :=
        if e.state.getD action 0 = 0 then
          { e with state := e.state.set action e.current_player }
        else e
      let terminated := is_game_over e1
      let reward := result e1
      some ({ e1 with current_player := -e1.current_player }, reward, terminated)
    else none
  else none

/-- Run a list of actions through `step`, starting from `e`; `none` as soon
as one call raises. -/
def runSteps (e : TicTacToeEnv) : List Nat → Option TicTacToeEnv
  | [] => some e
  | a :: as =>
    match step e a with
    | some (e2, _, _) => runSteps e2 as
    | none => none

/-- Run a list of actions through `step` and record each call's
`(reward, terminated)` pair together with the final environment. -/
def runTrace (e : TicTacToeEnv) : List Nat → Option (TicTacToeEnv × List (Int × Bool))
  | [] => some (e, [])
  | a :: as =>
    match step e a with
    | some (e2, r, t) =>
      match runTrace e2 as with
      | some (ef, outs) => some (ef, (r, t) :: outs)
      | none => none
    | none => none

/-- Number of PLAYER_ONE cells minus number of PLAYER_TWO cells. -/
def countDiff (l : List Int) : Int :=
  (l.count 1 : Int) - (l.count (-1) : Int)

/-- `true` when every action in the list lands on a then-empty cell and every
`step` call succeeds. -/
def emptyTargets (e : TicTacToeEnv) : List Nat → Bool
  | [] => true
  | a :: as =>
    match step e a with
    | some (e2, _, _) => (e.state.getD a 0 == 0) && emptyTargets e2 as
    | none => false

end TicTacToeEnv

open TicTacToeEnv

/-- The spec's wording of the terminal condition for N = 3: some row sum,
some column sum, the main-diagonal sum, or the anti-diagonal sum has
absolute value 3, or all 9 cells are non-zero (board full). -/
def specTerminal (l : List Int) : Prop :=
  |l.getD 0 0 + l.getD 1 0 + l.getD 2 0| = 3 ∨
  |l.getD 3 0 + l.getD 4 0 + l.getD 5 0| = 3 ∨
  |l.getD 6 0 + l.getD 7 0 + l.getD 8 0| = 3 ∨
  |l.getD 0 0 + l.getD 3 0 + l.getD 6 0| = 3 ∨
  |l.getD 1 0 + l.getD 4 0 + l.getD 7 0| = 3 ∨
  |l.getD 2 0 + l.getD 5 0 + l.getD 8 0| = 3 ∨
  |l.getD 0 0 + l.getD 4 0 + l.getD 8 0| = 3 ∨
  |l.getD 2 0 + l.getD 4 0 + l.getD 6 0| = 3 ∨
  (∀ c ∈ l, c ≠ 0)

/-- Relation between the current player and the board's count difference
maintained by `step` along plays whose moves all land on empty cells:
PLAYER_ONE to move and equal counts, or PLAYER_TWO to move and one extra
PLAYER_ONE cell. -/
def turnCountInv (e : TicTacToeEnv) : Prop :=
  (e.current_player = 1 ∧ countDiff e.state = 0) ∨
  (e.current_player = -1 ∧ countDiff e.state = 1)

/-- C9: on the default 3×3 board, the trace 0,1,2,3,4,6,5,7,8 from `reset`
returns `terminated = false` (and reward 0) on each of the first eight
steps and `(reward, terminated) = (0, true)` on the ninth, i.e. `_result`
reports the DRAW value 0. -/
theorem c9_draw_trace :
    (runTrace (reset (init 3)) [0, 1, 2, 3, 4, 6, 5, 7, 8]).map (fun p => p.2) =
      some [(0, false), (0, false), (0, false), (0, false), (0, false),
        (0, false), (0, false), (0, false), (0, true)] := by
  decide

/-- C1 (code bug evaluation): on the trace 1,3,2,4,5,6,7,8,0 from `reset`,
player one's ninth move completes the top row (cells 0,1,2 all hold +1) and
simultaneously fills the board, yet `step` returns reward 0 rather than +1:
`_result` tests board fullness before looking for a winning line. -/
theorem c1_full_board_win_returns_draw :
    (runTrace (reset (init 3)) [1, 3, 2, 4, 5, 6, 7, 8, 0]).map (fun p => p.2) =
      some [(0, false), (0, false), (0, false), (0, false), (0, false),
        (0, false), (0, false), (0, false), (0, true)] ∧
    (runTrace (reset (init 3)) [1, 3, 2, 4, 5, 6, 7, 8, 0]).map
      (fun p => p.1.state.take 3) = some [1, 1, 1] := by
  constructor
  · decide
  · decide

/-- C2 (counterexample): after the trace 0,3,1,4,2 player one has won the
top row and `_is_game_over` holds, yet a further `step` with the in-range
action 5 is processed rather than rejected. -/
theorem c2_step_after_terminal_not_rejected :
    (runSteps (reset (init 3)) [0, 3, 1, 4, 2]).map is_game_over = some true ∧
    ((runSteps (reset (init 3)) [0, 3, 1, 4, 2]).bind (fun e => step e 5)).isSome
      = true := by
  constructor
  · decide
  · decide

/-- C2 (amended): `step` performs no termination check: in a terminal state
a call with an action inside `[0, size²)` and inside the state's bounds
still succeeds (only the action-space assert can fail). -/
theorem c2_step_after_terminal_processed (e : TicTacToeEnv) (a : Nat)
    (ht : is_game_over e = true) (h1 : a < e.size * e.size)
    (h2 : a < e.state.length) :
    (step e a).isSome = true := by
  unfold step
  rw [if_pos h1, if_pos h2]
  rfl

/-- Witness for C2's amended theorem at the terminal state reached by the
trace 0,3,1,4,2. -/
theorem c2_step_after_terminal_processed_witness :
    is_game_over ⟨3, [1, 1, 1, -1, -1, 0, 0, 0, 0], -1⟩ = true ∧
    (5 < 3 * 3 ∧ 5 < ([1, 1, 1, -1, -1, 0, 0, 0, 0] : List Int).length) ∧
    (step ⟨3, [1, 1, 1, -1, -1, 0, 0, 0, 0], -1⟩ 5).isSome = true :=
  ⟨by decide, ⟨by decide, by decide⟩,
    c2_step_after_terminal_processed ⟨3, [1, 1, 1, -1, -1, 0, 0, 0, 0], -1⟩ 5
      (by decide) (by decide) (by decide)⟩

/-- C3 (counterexample): after the trace 0,3,1,4,2 the game is terminal and
cell 5 is empty; the subsequent `step` with action 5 writes −1 into cell 5,
so the board does change after termination and before any reset. -/
theorem c3_board_changes_after_terminal :
    (runSteps (reset (init 3)) [0, 3, 1, 4, 2]).map
      (fun e => (is_game_over e, e.state.getD 5 0)) = some (true, 0) ∧
    (runSteps (reset (init 3)) [0, 3, 1, 4, 2, 5]).map
      (fun e => e.state.getD 5 0) = some (-1) := by
  constructor
  · decide
  · decide

/-- C3 (amended): a post-terminal `step` is processed like any other: when
its in-range action targets a then-empty cell it writes the current
player's marker there, so the board changes; the board is left unchanged
only when the targeted cell is occupied. -/
theorem c3_post_terminal_step_writes_empty_cell (e : TicTacToeEnv) (a : Nat)
    (ht : is_game_over e = true) (h1 : a < e.size * e.size)
    (h2 : a < e.state.length) (h0 : e.state.getD a 0 = 0) :
    ∃ r t, step e a =
      some ({ e with state := e.state.set a e.current_player,
                     current_player := -e.current_player }, r, t) := by
  have h0g : e.state[a] = 0 := by
    rw [← List.getD_eq_getElem e.state 0 h2]
    exact h0
  exact ⟨result { e with state := e.state.set a e.current_player },
    is_game_over { e with state := e.state.set a e.current_player },
    by simp [step, h1, h2, h0g]⟩

/-- Witness for C3's amended theorem at the terminal state reached by the
trace 0,3,1,4,2 and the empty cell 5. -/
theorem c3_post_terminal_step_writes_empty_cell_witness :
    (is_game_over ⟨3, [1, 1, 1, -1, -1, 0, 0, 0, 0], -1⟩ = true ∧
      5 < 3 * 3 ∧ 5 < ([1, 1, 1, -1, -1, 0, 0, 0, 0] : List Int).length ∧
      ([1, 1, 1, -1, -1, 0, 0, 0, 0] : List Int).getD 5 0 = 0) ∧
    ∃ r t, step ⟨3, [1, 1, 1, -1, -1, 0, 0, 0, 0], -1⟩ 5 =
      some (⟨3, [1, 1, 1, -1, -1, -1, 0, 0, 0], 1⟩, r, t) :=
  ⟨⟨by decide, by decide, by decide, by decide⟩,
    c3_post_terminal_step_writes_empty_cell ⟨3, [1, 1, 1, -1, -1, 0, 0, 0, 0], -1⟩
      5 (by decide) (by decide) (by decide) (by decide)⟩

/-- C4 (counterexample): with in-range actions 0,0,1 from `reset`, the
second action targets the occupied cell 0, is absorbed as a no-op that
still flips the turn, and player one then moves again: the board ends with
two +1 cells and no −1 cell, so the count difference is 2, outside {0, 1}. -/
theorem c4_count_invariant_fails :
    (runSteps (reset (init 3)) [0, 0, 1]).map (fun e => countDiff e.state) =
      some 2 := by
  decide

/-- C7: an action outside `[0, size²)` fails the action-space assert, so
`step` raises before touching any state: no updated environment is
produced and the caller keeps the unchanged prior state. -/
theorem c7_out_of_range_step_fails (e : TicTacToeEnv) (a : Nat)
    (h : e.size * e.size ≤ a) : step e a = none := by
  unfold step
  rw [if_neg (by omega)]

/-- Witness for C7 at the spec's concrete scenario: size 3 and action 9. -/
theorem c7_out_of_range_step_fails_witness :
    (init 3).size * (init 3).size ≤ 9 ∧ step (init 3) 9 = none :=
  ⟨by decide, c7_out_of_range_step_fails (init 3) 9 (by decide)⟩

/-- C8 (counterexample): the constructor stores `np.zeros(9)` whatever the
requested size is, so with size 9 the reset observation is reshaped to
1×9, not 9×9. -/
theorem c8_obs_shape_not_square_for_size_nine :
    obs_shape (reset (init 9)) = some (1, 9) ∧
    ¬ obs_shape (reset (init 9)) = some (9, 9) := by
  constructor
  · decide
  · decide

/-- C8 (amended): for the default (and only supported) size 3, construction
followed by `reset` yields the all-zero nine-cell board, an observation of
shape 3×3, and PLAYER_ONE (+1) as the current player. -/
theorem c8_reset_default_size :
    (reset (init 3)).state = List.replicate 9 0 ∧
    (∀ c ∈ (reset (init 3)).state, c = 0) ∧
    obs_shape (reset (init 3)) = some (3, 3) ∧
    (reset (init 3)).current_player = 1 := by
  refine ⟨by decide, by decide, by decide, by decide⟩

/-- A list of length 9 is an explicit nine-element list. -/
theorem list_nine (l : List Int) (h : l.length = 9) :
    ∃ a b c d e f g h2 i, l = [a, b, c, d, e, f, g, h2, i] := by
  obtain _ | ⟨a, t⟩ := l
  · simp at h
  obtain _ | ⟨b, t⟩ := t
  · simp at h
  obtain _ | ⟨c, t⟩ := t
  · simp at h
  obtain _ | ⟨d, t⟩ := t
  · simp at h
  obtain _ | ⟨e, t⟩ := t
  · simp at h
  obtain _ | ⟨f, t⟩ := t
  · simp at h
  obtain _ | ⟨g, t⟩ := t
  · simp at h
  obtain _ | ⟨h2, t⟩ := t
  · simp at h
  obtain _ | ⟨i, t⟩ := t
  · simp at h
  obtain _ | ⟨j, t⟩ := t
  · exact ⟨a, b, c, d, e, f, g, h2, i, rfl⟩
  · simp at h

/-- `|x| = 3` written without the absolute-value function. -/
theorem abs_eq_three_iff (x : Int) : |x| = 3 ↔ x.natAbs = 3 := by
  rw [Int.abs_eq_natAbs]
  omega

/-- A cell is occupied exactly when its absolute value is at least one. -/
theorem ne_zero_iff_natAbs (x : Int) : ¬x = 0 ↔ 1 ≤ x.natAbs := by
  omega

/-- For cells in {−1, 0, +1}, the absolute values sum to 9 exactly when all
nine cells are occupied. -/
theorem specFull_iff (a b c d e f g h2 i : Int)
    (ha : a = -1 ∨ a = 0 ∨ a = 1) (hb : b = -1 ∨ b = 0 ∨ b = 1)
    (hc : c = -1 ∨ c = 0 ∨ c = 1) (hd : d = -1 ∨ d = 0 ∨ d = 1)
    (he2 : e = -1 ∨ e = 0 ∨ e = 1) (hf : f = -1 ∨ f = 0 ∨ f = 1)
    (hg : g = -1 ∨ g = 0 ∨ g = 1) (hh : h2 = -1 ∨ h2 = 0 ∨ h2 = 1)
    (hi : i = -1 ∨ i = 0 ∨ i = 1) :
    a.natAbs + (b.natAbs + (c.natAbs + (d.natAbs + (e.natAbs + (f.natAbs +
      (g.natAbs + (h2.natAbs + i.natAbs))))))) = 9 ↔
      (¬a = 0 ∧ ¬b = 0 ∧ ¬c = 0 ∧ ¬d = 0 ∧ ¬e = 0 ∧ ¬f = 0 ∧ ¬g = 0 ∧
        ¬h2 = 0 ∧ ¬i = 0) := by
  have Ba : a.natAbs ≤ 1 := by rcases ha with rfl | rfl | rfl <;> decide
  have Bb : b.natAbs ≤ 1 := by rcases hb with rfl | rfl | rfl <;> decide
  have Bc : c.natAbs ≤ 1 := by rcases hc with rfl | rfl | rfl <;> decide
  have Bd : d.natAbs ≤ 1 := by rcases hd with rfl | rfl | rfl <;> decide
  have Be : e.natAbs ≤ 1 := by rcases he2 with rfl | rfl | rfl <;> decide
  have Bf : f.natAbs ≤ 1 := by rcases hf with rfl | rfl | rfl <;> decide
  have Bg : g.natAbs ≤ 1 := by rcases hg with rfl | rfl | rfl <;> decide
  have Bh : h2.natAbs ≤ 1 := by rcases hh with rfl | rfl | rfl <;> decide
  have Bi : i.natAbs ≤ 1 := by rcases hi with rfl | rfl | rfl <;> decide
  clear ha hb hc hd he2 hf hg hh hi
  rw [ne_zero_iff_natAbs a, ne_zero_iff_natAbs b, ne_zero_iff_natAbs c,
    ne_zero_iff_natAbs d, ne_zero_iff_natAbs e, ne_zero_iff_natAbs f,
    ne_zero_iff_natAbs g, ne_zero_iff_natAbs h2, ne_zero_iff_natAbs i]
  revert Ba Bb Bc Bd Be Bf Bg Bh Bi
  generalize a.natAbs = na
  generalize b.natAbs = nb
  generalize c.natAbs = nc
  generalize d.natAbs = nd
  generalize e.natAbs = ne2
  generalize f.natAbs = nf
  generalize g.natAbs = ng
  generalize h2.natAbs = nh
  generalize i.natAbs = ni
  omega

/-- `_is_game_over` on an explicit nine-cell board with entries in
{−1, 0, +1} agrees with the spec's terminal condition. -/
theorem is_game_over_nine_iff (a b c d e f g h2 i : Int) (p : Int)
    (hcells : ∀ x ∈ [a, b, c, d, e, f, g, h2, i], x = -1 ∨ x = 0 ∨ x = 1) :
    (is_game_over ⟨3, [a, b, c, d, e, f, g, h2, i], p⟩ = true ↔
      specTerminal [a, b, c, d, e, f, g, h2, i]) := by
  simp only [List.mem_cons, List.not_mem_nil, or_false, forall_eq_or_imp,
    forall_eq] at hcells
  obtain ⟨ha, hb, hc, hd, he2, hf, hg, hh, hi⟩ := hcells
  have hfull := specFull_iff a b c d e f g h2 i ha hb hc hd he2 hf hg hh hi
  clear ha hb hc hd he2 hf hg hh hi
  simp [is_game_over, strided, specTerminal, List.range_succ]
  simp only [abs_eq_three_iff]
  constructor
  · intro hT
    rcases hT with ((((h | h) | ((h | h) | (h | h))) | h) | h) | h
    · exact Or.inl (by rw [add_assoc]; exact h)
    · exact Or.inr (Or.inr (Or.inr (Or.inl (by rw [add_assoc]; exact h))))
    · exact Or.inr (Or.inl (by rw [add_assoc]; exact h))
    · exact Or.inr (Or.inr (Or.inr (Or.inr (Or.inl (by rw [add_assoc]; exact h)))))
    · exact Or.inr (Or.inr (Or.inl (by rw [add_assoc]; exact h)))
    · exact Or.inr (Or.inr (Or.inr (Or.inr (Or.inr (Or.inl (by rw [add_assoc]; exact h))))))
    · exact Or.inr (Or.inr (Or.inr (Or.inr (Or.inr (Or.inr (Or.inl (by rw [add_assoc]; exact h)))))))
    · exact Or.inr (Or.inr (Or.inr (Or.inr (Or.inr (Or.inr (Or.inr (Or.inl (by rw [add_assoc]; exact h))))))))
    · exact Or.inr (Or.inr (Or.inr (Or.inr (Or.inr (Or.inr (Or.inr (Or.inr (hfull.mp h))))))))
  · intro hR
    rcases hR with h | h | h | h | h | h | h | h | h
    · exact Or.inl (Or.inl (Or.inl (Or.inl (Or.inl (by rw [← add_assoc]; exact h)))))
    · exact Or.inl (Or.inl (Or.inl (Or.inr (Or.inl (Or.inl (by rw [← add_assoc]; exact h))))))
    · exact Or.inl (Or.inl (Or.inl (Or.inr (Or.inr (Or.inl (by rw [← add_assoc]; exact h))))))
    · exact Or.inl (Or.inl (Or.inl (Or.inl (Or.inr (by rw [← add_assoc]; exact h)))))
    · exact Or.inl (Or.inl (Or.inl (Or.inr (Or.inl (Or.inr (by rw [← add_assoc]; exact h))))))
    · exact Or.inl (Or.inl (Or.inl (Or.inr (Or.inr (Or.inr (by rw [← add_assoc]; exact h))))))
    · exact Or.inl (Or.inl (Or.inr (by rw [← add_assoc]; exact h)))
    · exact Or.inl (Or.inr (by rw [← add_assoc]; exact h))
    · exact Or.inr (hfull.mpr h)

/-- C6: on a nine-cell board with entries in {−1, 0, +1}, `_is_game_over`
returns true exactly when some row, column or diagonal sum has absolute
value 3 or all nine cells are non-zero. -/
theorem c6_is_game_over_iff_spec (l : List Int) (p : Int) (hlen : l.length = 9)
    (hcells : ∀ c ∈ l, c = -1 ∨ c = 0 ∨ c = 1) :
    (is_game_over ⟨3, l, p⟩ = true ↔ specTerminal l) := by
  obtain ⟨a, b, c, d, e, f, g, h2, i, rfl⟩ := list_nine l hlen
  exact is_game_over_nine_iff a b c d e f g h2 i p hcells

/-- Witness for C6 at a concrete full drawn board. -/
theorem c6_is_game_over_iff_spec_witness :
    (([1, 1, -1, -1, -1, 1, 1, -1, 1] : List Int).length = 9 ∧
      ∀ c ∈ ([1, 1, -1, -1, -1, 1, 1, -1, 1] : List Int),
        c = -1 ∨ c = 0 ∨ c = 1) ∧
    (is_game_over ⟨3, [1, 1, -1, -1, -1, 1, 1, -1, 1], 1⟩ = true ↔
      specTerminal [1, 1, -1, -1, -1, 1, 1, -1, 1]) :=
  ⟨⟨by decide, by decide⟩,
    c6_is_game_over_iff_spec [1, 1, -1, -1, -1, 1, 1, -1, 1] 1
      (by decide) (by decide)⟩

/-- Setting a cell that currently holds 0 adds one occurrence of the written
value and leaves the count of any other non-zero value unchanged. -/
theorem count_set_of_getD_zero (l : List Int) (n : Nat) (p q : Int)
    (hn : n < l.length) (h0 : l.getD n 0 = 0) (hq : q ≠ 0) :
    (l.set n p).count q = l.count q + (if p = q then 1 else 0) := by
  induction l generalizing n with
  | nil => simp at hn
  | cons a t ih =>
    cases n with
    | zero =>
      have ha : a = 0 := by simpa [List.getD] using h0
      subst ha
      simp [List.count_cons, hq, Ne.symm hq]
    | succ m =>
      have hm : m < t.length := by simpa using hn
      have h0m : t.getD m 0 = 0 := by simpa [List.getD] using h0
      simp only [List.set, List.count_cons, ih m hm h0m]
      omega

/-- Writing +1 into an empty cell raises the count difference by one. -/
theorem countDiff_set_one (l : List Int) (n : Nat)
    (hn : n < l.length) (h0 : l.getD n 0 = 0) :
    countDiff (l.set n 1) = countDiff l + 1 := by
  unfold countDiff
  rw [count_set_of_getD_zero l n 1 1 hn h0 one_ne_zero,
    count_set_of_getD_zero l n 1 (-1) hn h0 (by norm_num)]
  simp
  ring

/-- Writing −1 into an empty cell lowers the count difference by one. -/
theorem countDiff_set_negone (l : List Int) (n : Nat)
    (hn : n < l.length) (h0 : l.getD n 0 = 0) :
    countDiff (l.set n (-1)) = countDiff l - 1 := by
  unfold countDiff
  rw [count_set_of_getD_zero l n (-1) 1 hn h0 one_ne_zero,
    count_set_of_getD_zero l n (-1) (-1) hn h0 (by norm_num)]
  simp
  ring

/-- One `step` onto an empty cell preserves `turnCountInv`. -/
theorem inv_preserved (e e2 : TicTacToeEnv) (a : Nat) (r : Int) (t : Bool)
    (hinv : turnCountInv e) (hstep : step e a = some (e2, r, t))
    (hemp : e.state.getD a 0 = 0) : turnCountInv e2 := by
  simp only [step] at hstep
  rw [if_pos hemp] at hstep
  split at hstep
  · split at hstep
    · rename_i hlt hlen
      rw [Option.some.injEq, Prod.mk.injEq, Prod.mk.injEq] at hstep
      obtain ⟨he2, -, -⟩ := hstep
      rcases hinv with ⟨hcp, hdiff⟩ | ⟨hcp, hdiff⟩
      · right
        rw [← he2]
        constructor
        · simp [hcp]
        · simp only [hcp]
          rw [countDiff_set_one e.state a hlen hemp, hdiff]
          norm_num
      · left
        rw [← he2]
        constructor
        · simp [hcp]
        · simp only [hcp]
          rw [countDiff_set_negone e.state a hlen hemp, hdiff]
          ring
    · simp at hstep
  · simp at hstep

/-- `turnCountInv` is preserved along any run whose moves all land on
then-empty cells. -/
theorem inv_runSteps (acts : List Nat) (e0 e : TicTacToeEnv)
    (hinv : turnCountInv e0) (hrun : runSteps e0 acts = some e)
    (hemp : emptyTargets e0 acts = true) : turnCountInv e := by
  induction acts generalizing e0 with
  | nil =>
    simp only [runSteps, Option.some.injEq] at hrun
    rw [← hrun]
    exact hinv
  | cons a as ih =>
    simp only [runSteps] at hrun
    simp only [emptyTargets] at hemp
    cases hs : step e0 a with
    | none =>
      rw [hs] at hrun
      simp at hrun
    | some v =>
      obtain ⟨e1, r, t⟩ := v
      rw [hs] at hrun hemp
      simp only [Bool.and_eq_true, beq_iff_eq] at hemp
      exact ih e1 (inv_preserved e0 e1 a r t hinv hs hemp.1) hrun hemp.2

/-- C4 (amended): along any run from `reset` in which every action lands on
a then-empty cell, the number of +1 cells minus the number of −1 cells is 0
or 1.  (The counterexample shows the restriction is needed: an occupied-cell
no-op consumes the turn and lets one player place twice.) -/
theorem c4_count_invariant_empty_targets (acts : List Nat) (e : TicTacToeEnv)
    (hrun : runSteps (reset (init 3)) acts = some e)
    (hemp : emptyTargets (reset (init 3)) acts = true) :
    countDiff e.state = 0 ∨ countDiff e.state = 1 := by
  have h := inv_runSteps acts (reset (init 3)) e
    (Or.inl ⟨by decide, by decide⟩) hrun hemp
  rcases h with ⟨-, h⟩ | ⟨-, h⟩
  · exact Or.inl h
  · exact Or.inr h

/-- Witness for C4's amended theorem after the two empty-cell moves 0, 1. -/
theorem c4_count_invariant_empty_targets_witness :
    (runSteps (reset (init 3)) [0, 1] =
        some ⟨3, [1, -1, 0, 0, 0, 0, 0, 0, 0], 1⟩ ∧
      emptyTargets (reset (init 3)) [0, 1] = true) ∧
    (countDiff (⟨3, [1, -1, 0, 0, 0, 0, 0, 0, 0], 1⟩ : TicTacToeEnv).state = 0 ∨
      countDiff (⟨3, [1, -1, 0, 0, 0, 0, 0, 0, 0], 1⟩ : TicTacToeEnv).state = 1) :=
  ⟨⟨by decide, by decide⟩,
    c4_count_invariant_empty_targets [0, 1] ⟨3, [1, -1, 0, 0, 0, 0, 0, 0, 0], 1⟩
      (by decide) (by decide)⟩

/-- C5: an in-range action onto an occupied cell does not fail, leaves every
board cell unchanged, and still consumes the turn: the returned environment
is the old one with `current_player` negated. -/
theorem c5_occupied_cell_noop_consumes_turn (e : TicTacToeEnv) (a : Nat)
    (h1 : a < e.size * e.size) (h2 : e.state.getD a 0 ≠ 0) :
    step e a = some ({ e with current_player := -e.current_player },
      result e, is_game_over e) := by
  have hlen : a < e.state.length := by
    by_contra hle
    exact h2 (List.getD_eq_default e.state 0 (Nat.le_of_not_lt hle))
  have h0g : ¬ e.state[a] = 0 := by
    rw [← List.getD_eq_getElem e.state 0 hlen]
    exact h2
  simp [step, h1, hlen, h0g]

/-- Witness for C5: player two plays the occupied cell 0; the board is kept
and the turn passes back to player one. -/
theorem c5_occupied_cell_noop_consumes_turn_witness :
    (0 < 3 * 3 ∧ ([1, 0, 0, 0, 0, 0, 0, 0, 0] : List Int).getD 0 0 ≠ 0) ∧
    step ⟨3, [1, 0, 0, 0, 0, 0, 0, 0, 0], -1⟩ 0 =
      some (⟨3, [1, 0, 0, 0, 0, 0, 0, 0, 0], 1⟩, 0, false) :=
  ⟨⟨by decide, by decide⟩,
    (c5_occupied_cell_noop_consumes_turn ⟨3, [1, 0, 0, 0, 0, 0, 0, 0, 0], -1⟩ 0
      (by decide) (by decide)).trans (by decide)⟩

/-- C10: whenever `step` succeeds and returns a non-zero reward, the
terminated flag it returns is true: `_result` yields ±1 only under
`_is_game_over`, which is exactly the returned flag. -/
theorem c10_nonzero_reward_implies_terminated (e : TicTacToeEnv) (a : Nat)
    (e2 : TicTacToeEnv) (r : Int) (t : Bool)
    (hcells : ∀ c ∈ e.state, c = -1 ∨ c = 0 ∨ c = 1)
    (h : step e a = some (e2, r, t)) (hr : r ≠ 0) : t = true := by
  simp only [step] at h
  split at h
  · split at h
    · rw [Option.some.injEq, Prod.mk.injEq, Prod.mk.injEq] at h
      obtain ⟨-, hrw, htw⟩ := h
      rw [← hrw] at hr
      rw [← htw]
      by_contra htf
      rw [Bool.not_eq_true] at htf
      unfold result at hr
      rw [htf] at hr
      simp at hr
    · simp at h
  · simp at h

/-- Witness for C10: player one completes the top row; `step` returns
reward +1 together with `terminated = true`. -/
theorem c10_nonzero_reward_implies_terminated_witness :
    ((∀ c ∈ ([1, 1, 0, -1, -1, 0, 0, 0, 0] : List Int),
        c = -1 ∨ c = 0 ∨ c = 1) ∧
      step ⟨3, [1, 1, 0, -1, -1, 0, 0, 0, 0], 1⟩ 2 =
        some (⟨3, [1, 1, 1, -1, -1, 0, 0, 0, 0], -1⟩, 1, true) ∧
      (1 : Int) ≠ 0) ∧
    true = true :=
  ⟨⟨by decide, by decide, by decide⟩,
    c10_nonzero_reward_implies_terminated ⟨3, [1, 1, 0, -1, -1, 0, 0, 0, 0], 1⟩
      2 ⟨3, [1, 1, 1, -1, -1, 0, 0, 0, 0], -1⟩ 1 true (by decide) (by decide)
      (by decide)⟩
